import Mathlib

/-!
Verification of the PhotoPicks photo-triage application.

This file gives a shallow embedding of the catalog / filter / selection core
of the repository:

* backend `server.js` (Express): the `GET /api/photos` scan handler, the
  `POST /api/metadata` handler and the `POST /api/copy-files` handler;
* frontend `App` component (`FolderTree.jsx`, second section): the filter
  `useEffect`, the `updateMetadata` optimistic update with its auto-advance
  `setTimeout`, and the keyboard dispatch.

JavaScript numbers holding ratings are modelled as `Int`; sizes as `Nat`;
a JS value that may be `null` is an `Option`; an argument that may be
`undefined` (absent) is a further `Option` layer.  The JS string comparator
`localeCompare` used for the name sort is modelled as lexicographic
comparison of character codes.
-/

/-- One photo record, as built by the backend scan
(`{name, path, size, rating, label}` in `GET /api/photos`). -/
structure PhotoRecord where
  name : String
  path : String
  size : Nat
  rating : Int
  label : Option String
deriving Repr, DecidableEq

/-- Filter criteria held in the App state: `filterRating` (0 = All, 1-5 =
minimum rating) and `filterColor` (`"All"` or a color name). -/
structure FilterCriteria where
  filterRating : Int
  filterColor : String
deriving Repr, DecidableEq

/-- JavaScript `x || 0` on an integer: yields `0` when `x` is `0` (falsy),
otherwise `x` itself; on integers this is the identity, kept literal for
fidelity to `(p.rating || 0)`. -/
def jsOrZero (r : Int) : Int :=
  if r = 0 then 0 else r

theorem jsOrZero_eq (r : Int) : jsOrZero r = r := by
  unfold jsOrZero
  split <;> omega

/-- Lexicographic comparison of character-code lists; models the JS
`a.name.localeCompare(b.name) <= 0` comparator used by the backend sort. -/
def charListLe : List Char → List Char → Bool
  | [], _ => true
  | _ :: _, [] => false
  | a :: as, b :: bs =>
      if a.toNat < b.toNat then true
      else if b.toNat < a.toNat then false
      else charListLe as bs

theorem charListLe_cons_iff (a b : Char) (as bs : List Char) :
    charListLe (a :: as) (b :: bs) = true ↔
      a.toNat < b.toNat ∨ (a.toNat = b.toNat ∧ charListLe as bs = true) := by
  show (if a.toNat < b.toNat then true
        else if b.toNat < a.toNat then false else charListLe as bs) = true ↔ _
  split_ifs with h1 h2
  · simp [h1]
  · constructor
    · intro h
      cases h
    · rintro (h | ⟨h, _⟩) <;> omega
  · have hab : a.toNat = b.toNat := by omega
    simp [hab, h1]

theorem charListLe_total (as bs : List Char) :
    charListLe as bs = true ∨ charListLe bs as = true := by
  induction as generalizing bs with
  | nil => left; rfl
  | cons a as ih =>
    cases bs with
    | nil => right; rfl
    | cons b bs =>
      rw [charListLe_cons_iff, charListLe_cons_iff]
      rcases Nat.lt_trichotomy a.toNat b.toNat with h | h | h
      · left; left; exact h
      · rcases ih bs with h2 | h2
        · left; right; exact ⟨h, h2⟩
        · right; right; exact ⟨h.symm, h2⟩
      · right; left; exact h

theorem charListLe_trans {as bs cs : List Char} (h1 : charListLe as bs = true)
    (h2 : charListLe bs cs = true) : charListLe as cs = true := by
  induction as generalizing bs cs with
  | nil => rfl
  | cons a as ih =>
    cases bs with
    | nil => simp [charListLe] at h1
    | cons b bs =>
      cases cs with
      | nil => simp [charListLe] at h2
      | cons c cs =>
        rw [charListLe_cons_iff] at h1 h2 ⊢
        rcases h1 with h1 | ⟨h1, h1rest⟩ <;> rcases h2 with h2 | ⟨h2, h2rest⟩
        · left; omega
        · left; omega
        · left; omega
        · right; exact ⟨by omega, ih h1rest h2rest⟩

/-- Ascending-name order on photo records (the backend sort comparator
`(a, b) => a.name.localeCompare(b.name)` modelled over character codes). -/
def nameLe (a b : PhotoRecord) : Prop :=
  charListLe a.name.data b.name.data = true

instance : DecidableRel nameLe := fun a b =>
  inferInstanceAs (Decidable (charListLe a.name.data b.name.data = true))

instance : IsTrans PhotoRecord nameLe :=
  ⟨fun _ _ _ h1 h2 => charListLe_trans h1 h2⟩

instance : IsTotal PhotoRecord nameLe :=
  ⟨fun a b => charListLe_total a.name.data b.name.data⟩

/-- Stable ascending-name sort; models `photos.sort((a, b) =>
a.name.localeCompare(b.name))` in the scan handler (modern JS engines use a
stable sort). -/
def sortByName (l : List PhotoRecord) : List PhotoRecord :=
  List.insertionSort nameLe l

/-- Rating stage of the filter `useEffect`:
`if (filterRating > 0) result = result.filter(p => (p.rating || 0) >= filterRating)`. -/
def ratingPass (c : FilterCriteria) (l : List PhotoRecord) : List PhotoRecord :=
  if 0 < c.filterRating then
    l.filter fun p => decide (c.filterRating ≤ jsOrZero p.rating)
  else l

/-- Color stage of the filter `useEffect`:
`if (filterColor !== 'All') result = result.filter(p => p.label === filterColor)`. -/
def colorPass (c : FilterCriteria) (l : List PhotoRecord) : List PhotoRecord :=
  if c.filterColor ≠ "All" then
    l.filter fun p => p.label == some c.filterColor
  else l

/-- The filter pipeline of the App filter `useEffect`: the rating stage
followed by the color stage, starting from `allPhotos`. -/
def applyFilter (allPhotos : List PhotoRecord) (c : FilterCriteria) : List PhotoRecord :=
  colorPass c (ratingPass c allPhotos)

/-- Membership predicate stated by the spec: include a record iff
`record.rating >= criteria.minRating` and the criteria label is the wildcard
or equals the record's label.  Written from the spec's words, to be compared
with `applyFilter`. -/
def specIncludedB (c : FilterCriteria) (p : PhotoRecord) : Bool :=
  decide (c.filterRating ≤ p.rating) &&
    (decide (c.filterColor = "All") || decide (p.label = some c.filterColor))

theorem applyFilter_sublist (C : List PhotoRecord) (F : FilterCriteria) :
    (applyFilter C F).Sublist C := by
  unfold applyFilter colorPass ratingPass
  split_ifs
  · exact (List.filter_sublist _).trans (List.filter_sublist _)
  · exact List.filter_sublist _
  · exact List.filter_sublist _
  · exact List.Sublist.refl _

/-- C1: for every catalog and criteria, the visible set is exactly the
records satisfying the spec's rating/label predicate (with `"All"` as the
wildcard), it is a sublist of the catalog, and it preserves the catalog's
ascending-name order. -/
theorem applyFilter_exact_and_ordered (C : List PhotoRecord) (F : FilterCriteria)
    (hF : 0 ≤ F.filterRating)
    (hR : ∀ p ∈ C, 0 ≤ p.rating)
    (hS : List.Sorted nameLe C) :
    applyFilter C F = C.filter (specIncludedB F)
      ∧ (applyFilter C F).Sublist C
      ∧ List.Sorted nameLe (applyFilter C F) := by
  refine ⟨?_, applyFilter_sublist C F,
    List.Pairwise.sublist (applyFilter_sublist C F) hS⟩
  unfold applyFilter colorPass ratingPass
  by_cases hFr : 0 < F.filterRating <;> by_cases hFc : F.filterColor ≠ "All"
  · rw [if_pos hFr, if_pos hFc, List.filter_filter]
    refine List.filter_congr fun p _ => ?_
    have hc : F.filterColor = "All" ↔ False := by simpa using hFc
    have hd : (p.label == some F.filterColor) = decide (p.label = some F.filterColor) := by
      by_cases h : p.label = some F.filterColor <;> simp [h]
    simp [specIncludedB, jsOrZero_eq, hc, Bool.and_comm, hd]
  · rw [if_pos hFr, if_neg hFc]
    refine List.filter_congr fun p _ => ?_
    have hc : F.filterColor = "All" := by simpa using hFc
    simp [specIncludedB, jsOrZero_eq, hc]
  · have h0 : F.filterRating = 0 := by omega
    rw [if_neg hFr, if_pos hFc]
    refine List.filter_congr fun p hp => ?_
    have hc : F.filterColor = "All" ↔ False := by simpa using hFc
    have hd : (p.label == some F.filterColor) = decide (p.label = some F.filterColor) := by
      by_cases h : p.label = some F.filterColor <;> simp [h]
    simp [specIncludedB, h0, hR p hp, hc, hd]
  · have h0 : F.filterRating = 0 := by omega
    have hAll : F.filterColor = "All" := by simpa using hFc
    rw [if_neg hFr, if_neg hFc]
    refine ((List.filter_congr fun p hp => ?_).trans (List.filter_true C)).symm
    simp [specIncludedB, h0, hR p hp, hAll]

/-- Concrete catalog from the spec's scenario: A unrated, B rated 5 with a
Red label, C rated 3. -/
def recA : PhotoRecord := ⟨"A.jpg", "/photos/A.jpg", 100, 0, none⟩

def recB : PhotoRecord := ⟨"B.jpg", "/photos/B.jpg", 200, 5, some "Red"⟩

def recC : PhotoRecord := ⟨"C.jpg", "/photos/C.jpg", 300, 3, none⟩

def cat3 : List PhotoRecord := [recA, recB, recC]

def crit3All : FilterCriteria := ⟨3, "All"⟩

theorem applyFilter_exact_and_ordered_witness :
    applyFilter cat3 crit3All = cat3.filter (specIncludedB crit3All)
      ∧ (applyFilter cat3 crit3All).Sublist cat3
      ∧ List.Sorted nameLe (applyFilter cat3 crit3All) :=
  applyFilter_exact_and_ordered cat3 crit3All (by decide) (by decide) (by decide)

/-- C2: the filter pipeline is idempotent: feeding its own output back in as
the catalog, with the same criteria, returns the same visible set.  (It is
side-effect-free by construction: the JS code builds the result with
`Array.prototype.filter`, which never mutates its input, and the embedding
is a pure function of the catalog.) -/
theorem applyFilter_idempotent (C : List PhotoRecord) (F : FilterCriteria) :
    applyFilter (applyFilter C F) F = applyFilter C F := by
  unfold applyFilter colorPass ratingPass
  by_cases hFr : 0 < F.filterRating <;> by_cases hFc : F.filterColor ≠ "All"
  · rw [if_pos hFr, if_pos hFc, if_pos hFr, if_pos hFc]
    have h1 : List.filter (fun p => decide (F.filterRating ≤ jsOrZero p.rating))
        (List.filter (fun p => p.label == some F.filterColor)
          (List.filter (fun p => decide (F.filterRating ≤ jsOrZero p.rating)) C))
        = List.filter (fun p => p.label == some F.filterColor)
            (List.filter (fun p => decide (F.filterRating ≤ jsOrZero p.rating)) C) := by
      refine List.filter_eq_self.mpr fun a ha => ?_
      exact (List.mem_filter.mp (List.mem_filter.mp ha).1).2
    rw [h1]
    refine List.filter_eq_self.mpr fun a ha => ?_
    exact (List.mem_filter.mp ha).2
  · rw [if_pos hFr, if_neg hFc, if_pos hFr, if_neg hFc]
    refine List.filter_eq_self.mpr fun a ha => ?_
    exact (List.mem_filter.mp ha).2
  · rw [if_neg hFr, if_pos hFc, if_neg hFr, if_pos hFc]
    refine List.filter_eq_self.mpr fun a ha => ?_
    exact (List.mem_filter.mp ha).2
  · rw [if_neg hFr, if_neg hFc, if_neg hFr, if_neg hFc]

/-- Helper: mapping a function that fixes every member of a list leaves the
list unchanged. -/
theorem list_map_id_of_mem {α : Type} {l : List α} {f : α → α}
    (h : ∀ x ∈ l, f x = x) : l.map f = l := by
  induction l with
  | nil => rfl
  | cons a l ih =>
    rw [List.map_cons, h a (by simp), ih fun x hx => h x (by simp [hx])]

/-- JavaScript array indexing `photos[i]` with an integer index: `undefined`
(here `none`) for a negative or out-of-range index. -/
def jsGet (l : List PhotoRecord) (i : Int) : Option PhotoRecord :=
  if 0 ≤ i then l[i.toNat]? else none

/-- Selection clamp from the filter `useEffect`:
`setSelectedIndex(prev => Math.min(prev, Math.max(0, result.length - 1)))`. -/
def clampSel (prev len : Int) : Int :=
  min prev (max 0 (len - 1))

/-- Auto-advance step from the `setTimeout` in `updateMetadata`:
`setSelectedIndex(prev => Math.min(prev + 1, photos.length - 1))`. -/
def advanceSel (prev len : Int) : Int :=
  min (prev + 1) (len - 1)

/-- App component state relevant to the catalog / filter / selection core:
`allPhotos` (the catalog), the two filter settings, and `selectedIndex`.
The derived `photos` state is recomputed by `visible`. -/
structure AppState where
  allPhotos : List PhotoRecord
  filterRating : Int
  filterColor : String
  selectedIndex : Int
deriving Repr, DecidableEq

def appCriteria (s : AppState) : FilterCriteria :=
  ⟨s.filterRating, s.filterColor⟩

/-- The derived `photos` state: the filter `useEffect` recomputes it as
`applyFilter` of the catalog whenever `allPhotos` or a filter setting
changes. -/
def visible (s : AppState) : List PhotoRecord :=
  applyFilter s.allPhotos (appCriteria s)

/-- The `updateList` closure inside `updateMetadata`: map over the list,
spreading `rating`/`label` onto the record whose `path` matches.  `none`
models an absent (`undefined`) argument, whose field is left alone; for the
label, `some none` models an explicit `null`. -/
def updateList (path : String) (r? : Option Int) (lb? : Option (Option String))
    (l : List PhotoRecord) : List PhotoRecord :=
  l.map fun p =>
    if p.path = path then
      { p with rating := r?.getD p.rating, label := lb?.getD p.label }
    else p

/-- Body of the POST `/api/metadata` fetch issued by `updateMetadata`:
`{file: currentPhoto.path, rating, label}`. -/
structure WriteRequest where
  file : String
  rating : Option Int
  label : Option (Option String)
deriving Repr, DecidableEq

/-- Local effect of `updateMetadata(rating, label)` followed by the state
updates it triggers, in commit order: return unchanged when
`photos[selectedIndex]` is `undefined`; otherwise apply the optimistic
`updateList` to `allPhotos`, let the filter `useEffect` clamp the index
against the new visible length, then let the 100 ms `setTimeout` advance the
index by one clamped against the visible length captured at call time.  Also
returns the write request handed to `fetch`. -/
def updateMetadata (s : AppState) (r? : Option Int) (lb? : Option (Option String)) :
    AppState × Option WriteRequest :=
  match jsGet (visible s) s.selectedIndex with
  | none => (s, none)
  | some currentPhoto =>
      let newAll := updateList currentPhoto.path r? lb? s.allPhotos
      let oldLen : Int := (visible s).length
      let newLen : Int := (applyFilter newAll (appCriteria s)).length
      let idx := advanceSel (clampSel s.selectedIndex newLen) oldLen
      ({ s with allPhotos := newAll, selectedIndex := idx },
        some ⟨currentPhoto.path, r?, lb?⟩)

/-- Outcome handling of the metadata write in `updateMetadata`: the `await
fetch` has no success handler and its `catch` only calls `console.error`, so
the App state is left untouched whatever the write's outcome. -/
def onWriteResult (s : AppState) (_result : Except String Unit) : AppState :=
  s

/-- C3 counterexample: with an empty visible set (n = 0) the clamp returns
the ordinary index 0 — the very value it also returns as a valid in-range
index when n = 1 — so, contrary to the claim, no distinguished 'none'
sentinel is returned for n = 0. -/
theorem clampSel_no_sentinel :
    clampSel 3 0 = 0 ∧ clampSel 0 1 = 0 ∧ (0 : Int) ≤ 0 ∧ (0 : Int) ≤ 1 - 1 := by
  constructor
  · unfold clampSel; omega
  · refine ⟨by unfold clampSel; omega, by omega, by omega⟩

/-- C3 amended: the clamp computes `min(i, max(0, n-1))`; for a nonnegative
current index it lands in `[0, n-1]` whenever `n > 0`; when `n = 0` it
returns the ordinary index 0 rather than a sentinel, the empty-set case
surfacing instead as the visible-set lookup at that index being `none`. -/
theorem clampSel_range (i n : Int) (hi : 0 ≤ i) :
    (0 < n → 0 ≤ clampSel i n ∧ clampSel i n ≤ n - 1)
      ∧ (clampSel i 0 = 0 ∧ jsGet [] (clampSel i 0) = none) := by
  have h0 : clampSel i 0 = 0 := by unfold clampSel; omega
  refine ⟨fun hn => ⟨?_, ?_⟩, h0, ?_⟩
  · unfold clampSel; omega
  · unfold clampSel; omega
  · rw [h0]
    rfl

theorem clampSel_range_witness :
    0 ≤ clampSel 2 5 ∧ clampSel 2 5 ≤ 5 - 1 :=
  (clampSel_range 2 5 (by omega)).1 (by omega)

/-- C4: after a rating/label write whose optimistic update leaves the
visible-set length unchanged or shrinks it by one (the only possibilities
when only the current record is touched and catalog paths are unique), the
selection advances by one clamped step: from index i to `min(i+1, n-1)`,
where n is the visible-set length at the time of the write. -/
theorem updateMetadata_autoAdvance (s : AppState) (r? : Option Int)
    (lb? : Option (Option String)) (p : PhotoRecord)
    (hcur : jsGet (visible s) s.selectedIndex = some p)
    (hlen : ((applyFilter (updateList p.path r? lb? s.allPhotos) (appCriteria s)).length : Int)
              = ((visible s).length : Int)
          ∨ ((applyFilter (updateList p.path r? lb? s.allPhotos) (appCriteria s)).length : Int)
              = ((visible s).length : Int) - 1) :
    (updateMetadata s r? lb?).1.selectedIndex
      = min (s.selectedIndex + 1) (((visible s).length : Int) - 1) := by
  have hi : 0 ≤ s.selectedIndex ∧ s.selectedIndex.toNat < (visible s).length := by
    unfold jsGet at hcur
    split at hcur
    · exact ⟨by assumption, (List.getElem?_eq_some_iff.mp hcur).1⟩
    · cases hcur
  unfold updateMetadata
  rw [hcur]
  dsimp only
  unfold advanceSel clampSel
  omega

def wRec (k : Nat) : PhotoRecord :=
  ⟨"P" ++ toString k ++ ".jpg", "/photos/P" ++ toString k ++ ".jpg", 100, 0, none⟩

def wCat5 : List PhotoRecord :=
  [wRec 1, wRec 2, wRec 3, wRec 4, wRec 5]

def s5at2 : AppState := ⟨wCat5, 0, "All", 2⟩

def s5at4 : AppState := ⟨wCat5, 0, "All", 4⟩

theorem updateMetadata_autoAdvance_witness :
    ((updateMetadata s5at2 (some 4) none).1.selectedIndex
        = min (s5at2.selectedIndex + 1) (((visible s5at2).length : Int) - 1)
      ∧ (updateMetadata s5at2 (some 4) none).1.selectedIndex = 3)
    ∧ ((updateMetadata s5at4 (some 4) none).1.selectedIndex
        = min (s5at4.selectedIndex + 1) (((visible s5at4).length : Int) - 1)
      ∧ (updateMetadata s5at4 (some 4) none).1.selectedIndex = 4) :=
  ⟨⟨updateMetadata_autoAdvance s5at2 (some 4) none (wRec 3) (by decide) (by decide),
      by decide⟩,
    ⟨updateMetadata_autoAdvance s5at4 (some 4) none (wRec 5) (by decide) (by decide),
      by decide⟩⟩

/-- C5: the optimistic update is a frame-preserving map: the catalog's
length (and positions, hence order) is unchanged; records at a
non-matching path are untouched; the record at the matching path keeps its
name, path and size, a rating-only update leaves its label unchanged, a
label-only update leaves its rating unchanged; and when no record matches
the path the whole catalog is unchanged. -/
theorem updateList_frame (l : List PhotoRecord) (path : String)
    (r? : Option Int) (lb? : Option (Option String)) :
    (updateList path r? lb? l).length = l.length
      ∧ (∀ (i : Nat) (p : PhotoRecord), l[i]? = some p → p.path ≠ path →
          (updateList path r? lb? l)[i]? = some p)
      ∧ (∀ (i : Nat) (p : PhotoRecord), l[i]? = some p → p.path = path →
          (updateList path r? lb? l)[i]?
            = some { p with rating := r?.getD p.rating, label := lb?.getD p.label })
      ∧ (∀ (i : Nat) (p : PhotoRecord) (r : Int), l[i]? = some p → p.path = path →
          r? = some r → lb? = none →
          (updateList path r? lb? l)[i]? = some { p with rating := r })
      ∧ (∀ (i : Nat) (p : PhotoRecord) (lb : Option String), l[i]? = some p →
          p.path = path → r? = none → lb? = some lb →
          (updateList path r? lb? l)[i]? = some { p with label := lb })
      ∧ ((∀ p ∈ l, p.path ≠ path) → updateList path r? lb? l = l) := by
  refine ⟨?_, ?_, ?_, ?_, ?_, ?_⟩
  · exact List.length_map l _
  · intro i p hp hne
    unfold updateList
    rw [List.getElem?_map, hp]
    simp [hne]
  · intro i p hp hpa
    unfold updateList
    rw [List.getElem?_map, hp]
    simp [hpa]
  · intro i p r hp hpa hr hl
    unfold updateList
    rw [List.getElem?_map, hp]
    subst hr hl
    simp [hpa]
  · intro i p lb hp hpa hr hl
    unfold updateList
    rw [List.getElem?_map, hp]
    subst hr hl
    simp [hpa]
  · intro hall
    unfold updateList
    exact list_map_id_of_mem fun p hp => by simp [hall p hp]

theorem updateList_frame_witness :
    (updateList "/photos/B.jpg" none (some (some "Green")) [recA, recB])[1]?
        = some { recB with label := some "Green" }
      ∧ (updateList "/photos/B.jpg" none (some (some "Green")) [recA, recB])[0]?
        = some recA
      ∧ updateList "/photos/Z.jpg" (some 4) none [recA, recB] = [recA, recB] :=
  ⟨(updateList_frame [recA, recB] "/photos/B.jpg" none (some (some "Green"))).2.2.2.2.1
      1 recB (some "Green") (by decide) (by decide) rfl rfl,
    (updateList_frame [recA, recB] "/photos/B.jpg" none (some (some "Green"))).2.1
      0 recA (by decide) (by decide),
    (updateList_frame [recA, recB] "/photos/Z.jpg" (some 4) none).2.2.2.2.2
      (by decide)⟩

/-- C7: when the asynchronous metadata write fails, the failure handler
leaves the App state exactly as the optimistic update left it: every
catalog record at the written path still carries the optimistic rating, and
any later filter application still reflects it. -/
theorem writeFailure_retains_optimistic (s : AppState) (r : Int) (p : PhotoRecord)
    (err : String) (hcur : jsGet (visible s) s.selectedIndex = some p) :
    onWriteResult (updateMetadata s (some r) none).1 (Except.error err)
        = (updateMetadata s (some r) none).1
      ∧ (∀ q ∈ (onWriteResult (updateMetadata s (some r) none).1
            (Except.error err)).allPhotos, q.path = p.path → q.rating = r)
      ∧ (∀ F q, q ∈ applyFilter (onWriteResult (updateMetadata s (some r) none).1
            (Except.error err)).allPhotos F → q.path = p.path → q.rating = r) := by
  have hall : (updateMetadata s (some r) none).1.allPhotos
      = updateList p.path (some r) none s.allPhotos := by
    unfold updateMetadata
    rw [hcur]
  have hmem : ∀ q ∈ updateList p.path (some r) none s.allPhotos,
      q.path = p.path → q.rating = r := by
    intro q hq hqp
    unfold updateList at hq
    rcases List.mem_map.mp hq with ⟨p', hp', hfp⟩
    by_cases hc : p'.path = p.path
    · rw [if_pos hc] at hfp
      rw [← hfp]
      simp
    · rw [if_neg hc] at hfp
      rw [← hfp] at hqp
      exact absurd hqp hc
  refine ⟨rfl, ?_, ?_⟩
  · intro q hq
    rw [onWriteResult, hall] at hq
    exact hmem q hq
  · intro F q hq
    rw [onWriteResult, hall] at hq
    exact hmem q ((applyFilter_sublist _ F).subset hq)

def s2at0 : AppState := ⟨[recA, recB], 0, "All", 0⟩

theorem writeFailure_retains_optimistic_witness :
    onWriteResult (updateMetadata s2at0 (some 4) none).1 (Except.error "boom")
      = (updateMetadata s2at0 (some 4) none).1 :=
  (writeFailure_retains_optimistic s2at0 4 recA "boom" (by decide)).1

/-- Raw entry of the exiftool JSON output for one scanned file, with the
fields the scan handler reads (`FileName`, `SourceFile`, `FileSize`,
`Rating`, `Label`); a tag the tool did not report is `none`. -/
structure RawItem where
  FileName : String
  SourceFile : String
  FileSize : Nat
  Rating : Option Int
  Label : Option String
deriving Repr, DecidableEq

/-- JavaScript `item.Label || null`: an absent value and the empty string
(both falsy) become `null`. -/
def jsOrNull (s : Option String) : Option String :=
  match s with
  | none => none
  | some v => if v = "" then none else some v

/-- JavaScript `item.Rating || 0` where the tag may be absent. -/
def jsRatingOrZero (r : Option Int) : Int :=
  match r with
  | none => 0
  | some v => jsOrZero v

/-- Record construction in the scan handler: `{name: item.FileName, path:
item.SourceFile, size: item.FileSize, rating: item.Rating || 0, label:
item.Label || null}`. -/
def toRecord (it : RawItem) : PhotoRecord :=
  ⟨it.FileName, it.SourceFile, it.FileSize, jsRatingOrZero it.Rating, jsOrNull it.Label⟩

/-- Outcome of the `execFile(exiftoolPath, args, ...)` gateway call combined
with the `JSON.parse` of its stdout: the callback's `error` branch, a
`JSON.parse` throw, or the parsed item list. -/
inductive GatewayResult where
  | execError (stderr : String)
  | parseError (msg : String)
  | parsed (items : List RawItem)
deriving Repr, DecidableEq

/-- Response of `GET /api/photos`: the scanned path, the photo list, and the
`console.error` warnings emitted while producing it. -/
structure ScanResponse where
  path : String
  photos : List PhotoRecord
  warnings : List String
deriving Repr, DecidableEq

/-- The `GET /api/photos` handler body around the gateway call: on an
`execFile` error or a `JSON.parse` failure it logs a warning and answers
with an empty photo list (HTTP 200), otherwise it maps the items to records
and sorts them by name ascending. -/
def scanPhotos (folderPath : String) (g : GatewayResult) : ScanResponse :=
  match g with
  | .execError stderr => ⟨folderPath, [], ["Exiftool error: " ++ stderr]⟩
  | .parseError msg => ⟨folderPath, [], ["JSON Parse error: " ++ msg]⟩
  | .parsed items => ⟨folderPath, sortByName (items.map toRecord), []⟩

/-- Case-insensitive jpg/jpeg/png extension allow-list, as selected by the
`-ext jpg -ext jpeg -ext png` (and uppercase) exiftool arguments. -/
def extAllowed (name : String) : Bool :=
  let lower := name.data.map Char.toLower
  List.isSuffixOf ".jpg".data lower || List.isSuffixOf ".jpeg".data lower
    || List.isSuffixOf ".png".data lower

/-- Modelled from the spec: the external exiftool directory scan (not part
of this repository) invoked with the `-ext` allow-list returns one raw item
per file of the scanned directory whose name matches the jpg/jpeg/png
allow-list case-insensitively. -/
def gatewayScan (dir : List RawItem) : List RawItem :=
  dir.filter fun it => extAllowed it.FileName

/-- C6: on a gateway failure (the external tool errors — e.g. the directory
is unreadable — or its output cannot be parsed) the scan answers with an
empty catalog and a logged warning instead of propagating the failure; on
success it returns exactly one record per discovered allow-listed file,
sorted by name ascending. -/
theorem scanPhotos_degrades_and_sorts (fp stderr msg : String) (dir : List RawItem) :
    (scanPhotos fp (.execError stderr)).photos = []
      ∧ (scanPhotos fp (.execError stderr)).warnings = ["Exiftool error: " ++ stderr]
      ∧ (scanPhotos fp (.parseError msg)).photos = []
      ∧ (scanPhotos fp (.parseError msg)).warnings = ["JSON Parse error: " ++ msg]
      ∧ ((scanPhotos fp (.parsed (gatewayScan dir))).photos).Perm
          ((dir.filter fun it => extAllowed it.FileName).map toRecord)
      ∧ List.Sorted nameLe (scanPhotos fp (.parsed (gatewayScan dir))).photos :=
  ⟨rfl, rfl, rfl, rfl, List.perm_insertionSort nameLe _,
    List.sorted_insertionSort nameLe _⟩

/-- Helper to `getSafePath`: `path.resolve(reqPath)` is kept abstract as a
caller-supplied resolution function; `reqPath` is `none` when the `path`
query parameter is absent. -/
def getSafePath (defaultRoot : String) (resolve : String → String)
    (reqPath : Option String) : String :=
  match reqPath with
  | none => defaultRoot
  | some p => if p = "" then defaultRoot else resolve p

/-- The `GET /api/photos` handler including its `getSafePath` prologue. -/
def photosHandler (defaultRoot : String) (resolve : String → String)
    (queryPath : Option String) (g : GatewayResult) : ScanResponse :=
  scanPhotos (getSafePath defaultRoot resolve queryPath) g

/-- Resolution of `DEFAULT_ROOT = path.resolve(__dirname, '../..')` over
path segments: two levels above the server source directory. -/
def defaultRootSegs (dirnameSegs : List String) : List String :=
  dirnameSegs.dropLast.dropLast

/-- C10: a `GET /api/photos` request with an absent or empty `path` query
parameter is not rejected: it behaves exactly like a scan of `DEFAULT_ROOT`
(whose segment form drops the last two segments of the server source
directory, i.e. resolves two levels above it) and reports that directory as
the scanned path. -/
theorem photosHandler_defaultRoot (defaultRoot : String)
    (resolve : String → String) (g : GatewayResult)
    (segs : List String) (a b : String) :
    photosHandler defaultRoot resolve none g = scanPhotos defaultRoot g
      ∧ photosHandler defaultRoot resolve (some "") g = scanPhotos defaultRoot g
      ∧ (photosHandler defaultRoot resolve none g).path = defaultRoot
      ∧ (photosHandler defaultRoot resolve (some "") g).path = defaultRoot
      ∧ defaultRootSegs (segs ++ [a, b]) = segs := by
  have h1 : getSafePath defaultRoot resolve none = defaultRoot := rfl
  have h2 : getSafePath defaultRoot resolve (some "") = defaultRoot := by
    show (if ("" : String) = "" then defaultRoot else resolve "") = defaultRoot
    rw [if_pos rfl]
  have h3 : ∀ q, photosHandler defaultRoot resolve q g
      = scanPhotos (getSafePath defaultRoot resolve q) g := fun _ => rfl
  have hpath : ∀ fp, (scanPhotos fp g).path = fp := by
    intro fp
    cases g <;> rfl
  refine ⟨by rw [h3, h1], by rw [h3, h2], ?_, ?_, ?_⟩
  · rw [h3, h1, hpath]
  · rw [h3, h2, hpath]
  · show ((segs ++ [a, b]).dropLast).dropLast = segs
    have : segs ++ [a, b] = (segs ++ [a]) ++ [b] := by simp
    rw [this, List.dropLast_concat, List.dropLast_concat]

/-- Response of the `POST /api/copy-files` handler: the success JSON with
its count, the catch-block error JSON, or the 400 validation answer. -/
inductive CopyOutcome where
  | ok (count : Nat)
  | failed (msg : String)
  | badRequest
deriving Repr, DecidableEq

/-- The copy loop of `POST /api/copy-files`: `for (const file of files) {
await fs.promises.copyFile(file, destPath); count++ }`, run inside a single
try/catch.  `copyOk` says whether copying a given source file succeeds
(`false` models `copyFile` rejecting, e.g. the source missing).  Returns
the files actually copied (the side effects performed, in order) together
with the handler response: the first rejection ends the loop and yields the
catch-block error response. -/
def copyLoop (copyOk : String → Bool) (files : List String) (count : Nat)
    (copied : List String) : List String × CopyOutcome :=
  match files with
  | [] => (copied, .ok count)
  | f :: rest =>
      if copyOk f then copyLoop copyOk rest (count + 1) (copied ++ [f])
      else (copied, .failed f)

/-- The `POST /api/copy-files` handler after its input validation. -/
def copyFiles (copyOk : String → Bool) (files : List String) :
    List String × CopyOutcome :=
  copyLoop copyOk files 0 []

def batch5 : List String :=
  ["f1.jpg", "f2.jpg", "f3.jpg", "f4.jpg", "f5.jpg"]

/-- Copy oracle in which file #3 of the batch is missing. -/
def missing3 (f : String) : Bool :=
  !(f == "f3.jpg")

/-- C8 counterexample: on the claim's own scenario — a batch of 5 files
whose third is missing — the handler does not answer count = 4: the loop
aborts at file #3, files #4 and #5 are never copied, and the whole batch
answers with the catch-block error. -/
theorem copyFiles_aborts_on_failure :
    (copyFiles missing3 batch5).2 ≠ CopyOutcome.ok 4
      ∧ copyFiles missing3 batch5 = (["f1.jpg", "f2.jpg"], CopyOutcome.failed "f3.jpg") := by
  constructor
  · decide
  · decide

theorem copyLoop_all_ok (copyOk : String → Bool) :
    ∀ (files : List String) (count : Nat) (copied : List String),
      (∀ f ∈ files, copyOk f = true) →
      copyLoop copyOk files count copied = (copied ++ files, .ok (count + files.length)) := by
  intro files
  induction files with
  | nil => intro count copied _; simp [copyLoop]
  | cons f rest ih =>
    intro count copied hall
    unfold copyLoop
    rw [if_pos (hall f (by simp))]
    rw [ih (count + 1) (copied ++ [f]) fun x hx => hall x (by simp [hx])]
    simp
    omega

theorem copyLoop_copied (copyOk : String → Bool) :
    ∀ (files : List String) (count : Nat) (copied : List String),
      (copyLoop copyOk files count copied).1 = copied ++ files.takeWhile copyOk := by
  intro files
  induction files with
  | nil => intro count copied; simp [copyLoop]
  | cons f rest ih =>
    intro count copied
    unfold copyLoop
    by_cases hf : copyOk f = true
    · rw [if_pos hf, ih]
      simp [List.takeWhile_cons, hf]
    · rw [if_neg hf]
      simp only [List.takeWhile_cons]
      rw [show copyOk f = false by simpa using hf]
      simp

theorem copyLoop_failed_mem (copyOk : String → Bool) :
    ∀ (files : List String) (count : Nat) (copied : List String) (msg : String),
      (copyLoop copyOk files count copied).2 = .failed msg →
      msg ∈ files ∧ copyOk msg = false := by
  intro files
  induction files with
  | nil => intro count copied msg h; cases h
  | cons f rest ih =>
    intro count copied msg h
    unfold copyLoop at h
    by_cases hf : copyOk f = true
    · rw [if_pos hf] at h
      rcases ih (count + 1) (copied ++ [f]) msg h with ⟨h1, h2⟩
      exact ⟨by simp [h1], h2⟩
    · rw [if_neg hf] at h
      cases h
      exact ⟨by simp, by simpa using hf⟩

/-- C8 amended: a failing file aborts the batch rather than being skipped —
when every file copies, the handler answers count = number of files and all
files are copied; in general the files actually copied are exactly the
longest all-succeeding prefix of the batch; and an error answer names a
failing file of the batch. -/
theorem copyFiles_batch_behavior (copyOk : String → Bool) (files : List String) :
    ((∀ f ∈ files, copyOk f = true) →
        copyFiles copyOk files = (files, .ok files.length))
      ∧ (copyFiles copyOk files).1 = files.takeWhile copyOk
      ∧ (∀ msg, (copyFiles copyOk files).2 = .failed msg →
          msg ∈ files ∧ copyOk msg = false) := by
  refine ⟨?_, ?_, ?_⟩
  · intro hall
    unfold copyFiles
    rw [copyLoop_all_ok copyOk files 0 [] hall]
    simp
  · unfold copyFiles
    rw [copyLoop_copied]
    simp
  · intro msg h
    exact copyLoop_failed_mem copyOk files 0 [] msg h

theorem copyFiles_batch_behavior_witness :
    copyFiles (fun _ => true) batch5 = (batch5, CopyOutcome.ok batch5.length) :=
  (copyFiles_batch_behavior (fun _ => true) batch5).1 fun _ _ => rfl

/-- Tags assembled by the `POST /api/metadata` handler and handed to
`exiftool.write` (field `XMPRating` stands for `XMP:Rating`, `XMPLabel` for
`XMP:Label`, `XPKeywords` for the Windows `XPKeywords`); a field absent from
`tagsToWrite` is `none`. -/
structure TagsToWrite where
  Rating : Option Int := none
  XMPRating : Option Int := none
  RatingPercent : Option Int := none
  Label : Option (Option String) := none
  XMPLabel : Option (Option String) := none
  Keywords : Option (List String) := none
  Subject : Option (List String) := none
  XPKeywords : Option String := none
deriving Repr, DecidableEq

/-- The Windows `RatingPercent` lookup
`{0:0, 1:1, 2:25, 3:50, 4:75, 5:99}[rating] || 0`. -/
def ratingPercentMap (r : Int) : Int :=
  if r = 0 then 0
  else if r = 1 then 1
  else if r = 2 then 25
  else if r = 3 then 50
  else if r = 4 then 75
  else if r = 5 then 99
  else 0

/-- Color labels stripped from the existing keywords before the new label is
appended. -/
def colorLabels : List String :=
  ["Red", "Yellow", "Green", "Blue", "Purple", "Orange", "Gray"]

/-- Normalization of the keywords read back from the file:
`currentMeta.Keywords || []` plus the string-to-singleton-array fix. -/
def normKeywords (kw : Option (String ⊕ List String)) : List String :=
  match kw with
  | none => []
  | some (Sum.inl s) => [s]
  | some (Sum.inr l) => l

/-- Tag assembly of the `POST /api/metadata` handler: when a rating is
provided it is written (unvalidated) to `Rating`, `XMP:Rating` and, mapped,
to `RatingPercent`; when a label is provided it is written to `Label` and
`XMP:Label`, and the keyword fields are rebuilt from the file's current
keywords with known color labels removed and the new truthy label
appended. -/
def buildTags (rating : Option Int) (label : Option (Option String))
    (currentKeywords : Option (String ⊕ List String)) : TagsToWrite :=
  let t : TagsToWrite := {}
  let t := match rating with
    | some r =>
        { t with
          Rating := some r
          XMPRating := some r
          RatingPercent := some (ratingPercentMap r) }
    | none => t
  match label with
  | none => t
  | some lb =>
      let keywords := (normKeywords currentKeywords).filter fun k =>
        !(colorLabels.contains k)
      let keywords := match lb with
        | some s => if s = "" then keywords else keywords ++ [s]
        | none => keywords
      { t with
        Label := some lb
        XMPLabel := some lb
        Keywords := some keywords
        Subject := some keywords
        XPKeywords := some (String.intercalate ";" keywords) }

/-- Response of `POST /api/metadata`: either the 400 validation answer or
the tags passed to `exiftool.write`. -/
inductive MetaResponse where
  | badRequest (msg : String)
  | ok (tags : TagsToWrite)
deriving Repr, DecidableEq

/-- The `POST /api/metadata` handler: reject a missing/empty `file`,
otherwise assemble and write the tags. -/
def postMetadata (file : Option String) (rating : Option Int)
    (label : Option (Option String))
    (currentKeywords : Option (String ⊕ List String)) : MetaResponse :=
  match file with
  | none => .badRequest "Missing file path"
  | some f =>
      if f = "" then .badRequest "Missing file path"
      else .ok (buildTags rating label currentKeywords)

/-- Rating/label keyboard dispatch of the App `handleKeyDown` handler: the
`(rating, label)` argument pair passed to `updateMetadata` for each of the
keys '0'-'9' (`none` = argument left `undefined`; `some none` = explicit
`null`). -/
def keyDispatch (key : String) : Option (Option Int × Option (Option String)) :=
  match key with
  | "1" => some (some 1, none)
  | "2" => some (some 2, none)
  | "3" => some (some 3, none)
  | "4" => some (some 4, none)
  | "5" => some (some 5, none)
  | "0" => some (some 0, some none)
  | "6" => some (none, some (some "Red"))
  | "7" => some (none, some (some "Yellow"))
  | "8" => some (none, some (some "Green"))
  | "9" => some (none, some (some "Blue"))
  | _ => none

/-- C9 counterexample: a metadata update request with rating 6 is neither
rejected nor clamped: the handler accepts it and stores 6 — a value outside
[0,5] — verbatim in the `Rating` tag. -/
theorem postMetadata_stores_out_of_range :
    postMetadata (some "/photos/A.jpg") (some 6) none none
        = MetaResponse.ok (buildTags (some 6) none none)
      ∧ (buildTags (some 6) none none).Rating = some 6
      ∧ ¬((0 : Int) ≤ 6 ∧ (6 : Int) ≤ 5) := by
  exact ⟨by decide, rfl, by omega⟩

/-- C9 amended: the backend handler performs no range validation — it stores
the input rating unchanged, so the stored `Rating` lies in [0,5] exactly
when the input does; the [0,5] invariant holds for UI-driven updates only
because the keyboard dispatch issues exclusively ratings in {0,...,5}. -/
theorem postMetadata_rating_passthrough (r : Int) (lb : Option (Option String))
    (kw : Option (String ⊕ List String)) (key : String) :
    (buildTags (some r) lb kw).Rating = some r
      ∧ ((0 ≤ r ∧ r ≤ 5) ↔
          ∃ v, (buildTags (some r) lb kw).Rating = some v ∧ 0 ≤ v ∧ v ≤ 5)
      ∧ (∀ args, keyDispatch key = some args →
          ∀ v : Int, args.1 = some v → 0 ≤ v ∧ v ≤ 5) := by
  have hRat : (buildTags (some r) lb kw).Rating = some r := by
    unfold buildTags
    cases lb <;> rfl
  refine ⟨hRat, ?_, ?_⟩
  · constructor
    · intro h
      exact ⟨r, hRat, h⟩
    · rintro ⟨v, hv, h1, h2⟩
      rw [hRat] at hv
      cases hv
      exact ⟨h1, h2⟩
  · intro args h v hv
    unfold keyDispatch at h
    split at h
    all_goals cases h
    all_goals cases hv
    all_goals omega

theorem postMetadata_rating_passthrough_witness :
    (buildTags (some 4) none none).Rating = some 4
      ∧ ((0 : Int) ≤ 4 ∧ (4 : Int) ≤ 5) :=
  ⟨(postMetadata_rating_passthrough 4 none none "1").1,
    (postMetadata_rating_passthrough 4 none none "4").2.2 (some 4, none) rfl 4 rfl⟩
